import Mathlib

/-
Shallow embedding of `src/earthquakes/tools.py`.

Numeric values (magnitudes, distances, payout amounts) are modelled as
rationals; the great-circle distance formula, which uses trigonometric
functions, is modelled over the reals.  Python dictionaries keyed by
integer years are modelled as association lists with unique keys,
together with lookup/insert operations that mirror dict semantics.
-/

namespace Earthquakes

/-- One row of the earthquake catalogue, as consumed by `compute_payouts`
(columns `time`, `mag`, `distance` of the dataframe). -/
structure EarthquakeEvent where
  time : String
  mag : ℚ
  distance : ℚ
deriving Repr, DecidableEq

/-- One row of the payout schedule (columns `Radius`, `Magnitude`, `Payout`). -/
structure PayoutBand where
  radius : ℚ
  magnitude : ℚ
  payout : ℚ
deriving Repr, DecidableEq

/-- The numeric value of a decimal digit character, `none` otherwise. -/
def charDigit (c : Char) : Option Nat :=
  if '0' ≤ c ∧ c ≤ '9' then some (c.toNat - '0'.toNat) else none

/-- Accumulating parse of a run of decimal digits. -/
def parseDigitsAux : List Char → Nat → Option Nat
  | [], acc => some acc
  | c :: cs, acc =>
    match charDigit c with
    | none => none
    | some d => parseDigitsAux cs (acc * 10 + d)

/-- Parse a non-empty all-digit character list as a natural number. -/
def parseDigits (cs : List Char) : Option Nat :=
  match cs with
  | [] => none
  | _ :: _ => parseDigitsAux cs 0

/-- Parse an optionally `-`-signed decimal integer, as Python's `int` does on
a string of sign and digits. -/
def parseInt (cs : List Char) : Option Int :=
  match cs with
  | '-' :: rest => (parseDigits rest).map (fun n => -(n : Int))
  | _ => (parseDigits cs).map (fun n => (n : Int))

/-- `int(t[0:4])`: the calendar year of an event, read from the first four
characters of its `time` field; `none` models the `ValueError` Python raises
on a malformed field. -/
def eventYear (t : String) : Option Int :=
  parseInt (t.data.take 4)

/-- Lookup in a Python dict modelled as an association list. -/
def dictLookup (d : List (Int × ℚ)) (k : Int) : Option ℚ :=
  match d with
  | [] => none
  | (k', v) :: rest => if k' = k then some v else dictLookup rest k

/-- `d[k] = v` on a Python dict: replace the value when the key is present,
append the binding otherwise. -/
def dictInsert (d : List (Int × ℚ)) (k : Int) (v : ℚ) : List (Int × ℚ) :=
  match d with
  | [] => [(k, v)]
  | (k', v') :: rest =>
    if k' = k then (k, v) :: rest else (k', v') :: dictInsert rest k v

/-- The inner loop of `compute_payouts` (tools.py lines 66-70): the payout
accumulator starts at 0 and is replaced by a band's payout exactly when the
band qualifies (`dist <= Radius and mag >= Magnitude`) and its payout is
strictly larger than the accumulator. -/
def eventPayout (bands : List PayoutBand) (mg dist : ℚ) : ℚ :=
  bands.foldl
    (fun payout b =>
      if dist ≤ b.radius ∧ b.magnitude ≤ mg then
        if payout < b.payout then b.payout else payout
      else payout)
    0

/-- The per-event dictionary update of `compute_payouts` (tools.py lines
72-77): an absent year is inserted with the event's payout; a present year
is overwritten only when the new payout is strictly greater. -/
def updateYear (d : List (Int × ℚ)) (year : Int) (payout : ℚ) :
    List (Int × ℚ) :=
  match dictLookup d year with
  | some v => if v < payout then dictInsert d year payout else d
  | none => dictInsert d year payout

/-- The event loop of `compute_payouts`, threading the `payout_years` dict;
`none` models the exception raised on the first malformed `time` field. -/
def computePayoutsGo (bands : List PayoutBand) :
    List EarthquakeEvent → List (Int × ℚ) → Option (List (Int × ℚ))
  | [], d => some d
  | e :: es, d =>
    match eventYear e.time with
    | none => none
    | some y =>
      computePayoutsGo bands es (updateYear d y (eventPayout bands e.mag e.distance))

/-- `compute_payouts(earthquake_data, payouts_str)` (tools.py lines 44-80). -/
def compute_payouts (events : List EarthquakeEvent) (bands : List PayoutBand) :
    Option (List (Int × ℚ)) :=
  computePayoutsGo bands events []

/-- `compute_burning_cost(payouts, start_year, end_year)` (tools.py lines
83-113): select the payouts of the years inside the closed interval, return
`None` when none is selected, otherwise their sum divided by the requested
interval length.  (The Python defaults are `start_year=1952`, `end_year=2021`.) -/
def compute_burning_cost (payouts : List (Int × ℚ))
    (start_year end_year : Int) : Option ℚ :=
  let burn : List ℚ :=
    (payouts.filter (fun p => decide (start_year ≤ p.1 ∧ p.1 ≤ end_year))).map
      (fun p => p.2)
  if burn.length < 1 then none
  else some (burn.sum / ((end_year - start_year + 1 : Int) : ℚ))

/-- The events of a given calendar year, used to state the yearly-maximum
properties of `compute_payouts`. -/
def yearEvents (events : List EarthquakeEvent) (y : Int) :
    List EarthquakeEvent :=
  events.filter (fun e => decide (eventYear e.time = some y))

/-- The per-event payouts of a given calendar year. -/
def yearPayoutList (bands : List PayoutBand) (events : List EarthquakeEvent)
    (y : Int) : List ℚ :=
  (yearEvents events y).map (fun e => eventPayout bands e.mag e.distance)

/-- The accumulated value the dict update logic of `compute_payouts` produces
from an optional previously recorded value and a list of per-event payouts. -/
def runMax : Option ℚ → List ℚ → Option ℚ
  | o, [] => o
  | none, p :: l => runMax (some p) l
  | some v, p :: l => runMax (some (if v < p then p else v)) l

/-- `EARTH_RADIUS = 6378` (tools.py line 1). -/
def EARTH_RADIUS : ℝ := 6378

/-- `get_haversine_distance` (tools.py lines 12-41), per input point: convert
degrees to radians, apply the haversine formula, scale by the earth radius.
The numpy version maps this scalar computation over the input arrays. -/
noncomputable def get_haversine_distance (lat lon lat0 lon0 : ℝ) : ℝ :=
  let latr := lat * (Real.pi / 180)
  let lonr := lon * (Real.pi / 180)
  let lat0r := lat0 * (Real.pi / 180)
  let lon0r := lon0 * (Real.pi / 180)
  let dlon := lonr - lon0r
  let dlat := latr - lat0r
  let a := Real.sin (dlat / 2) ^ 2 +
    Real.cos lat0r * Real.cos latr * Real.sin (dlon / 2) ^ 2
  let c := 2 * Real.arcsin (Real.sqrt a)
  c * EARTH_RADIUS

/- ### Order and dictionary lemmas -/

theorem if_lt_eq_max (a b : ℚ) : (if a < b then b else a) = max a b := by
  rcases lt_or_le a b with h | h
  · rw [if_pos h, max_eq_right h.le]
  · rw [if_neg (not_lt.mpr h), max_eq_left h]

theorem dictLookup_dictInsert_self (d : List (Int × ℚ)) (k : Int) (v : ℚ) :
    dictLookup (dictInsert d k v) k = some v := by
  induction d with
  | nil => simp [dictInsert, dictLookup]
  | cons kv rest ih =>
    obtain ⟨k', v'⟩ := kv
    by_cases h : k' = k
    · subst h
      simp [dictInsert, dictLookup]
    · simp [dictInsert, dictLookup, h, ih]

theorem dictLookup_dictInsert_ne (d : List (Int × ℚ)) (k k' : Int) (v : ℚ)
    (h : k ≠ k') : dictLookup (dictInsert d k v) k' = dictLookup d k' := by
  induction d with
  | nil => simp [dictInsert, dictLookup, h]
  | cons kv rest ih =>
    obtain ⟨k'', v''⟩ := kv
    by_cases h2 : k'' = k
    · subst h2
      simp [dictInsert, dictLookup, h]
    · simp [dictInsert, dictLookup, h2, ih]

theorem dictLookup_updateYear_self (d : List (Int × ℚ)) (k : Int) (p : ℚ) :
    dictLookup (updateYear d k p) k =
      some (match dictLookup d k with
            | none => p
            | some v => if v < p then p else v) := by
  unfold updateYear
  cases h : dictLookup d k with
  | none => simp [dictLookup_dictInsert_self]
  | some v =>
    by_cases hvp : v < p
    · simp [hvp, dictLookup_dictInsert_self]
    · simp [hvp, h]

theorem dictLookup_updateYear_ne (d : List (Int × ℚ)) (k k' : Int) (p : ℚ)
    (h : k ≠ k') :
    dictLookup (updateYear d k p) k' = dictLookup d k' := by
  unfold updateYear
  cases hdk : dictLookup d k with
  | none => exact dictLookup_dictInsert_ne d k k' p h
  | some v =>
    by_cases hvp : v < p
    · simp only [hvp, if_pos]
      exact dictLookup_dictInsert_ne d k k' p h
    · simp [hvp]

/- ### Running-maximum lemmas -/

theorem runMax_some (l : List ℚ) : ∀ v : ℚ,
    runMax (some v) l = some (l.foldl max v) := by
  induction l with
  | nil => intro v; rfl
  | cons p l ih =>
    intro v
    rw [runMax, if_lt_eq_max, ih, List.foldl_cons]

theorem runMax_none_cons (p : ℚ) (l : List ℚ) :
    runMax none (p :: l) = some (l.foldl max p) := by
  rw [runMax, runMax_some]

theorem le_foldl_max (l : List ℚ) : ∀ v : ℚ, v ≤ l.foldl max v := by
  induction l with
  | nil => intro v; exact le_refl v
  | cons p l ih =>
    intro v
    exact le_trans (le_max_left v p) (ih (max v p))

theorem foldl_max_le_of_mem (l : List ℚ) : ∀ v w : ℚ, w ∈ l →
    w ≤ l.foldl max v := by
  induction l with
  | nil => intro v w hw; exact absurd hw (List.not_mem_nil w)
  | cons p l ih =>
    intro v w hw
    rcases List.mem_cons.mp hw with h | h
    · subst h
      exact le_trans (le_max_right v w) (le_foldl_max l (max v w))
    · exact ih (max v p) w h

theorem foldl_max_mem (l : List ℚ) : ∀ v : ℚ,
    l.foldl max v = v ∨ l.foldl max v ∈ l := by
  induction l with
  | nil => intro v; exact Or.inl rfl
  | cons p l ih =>
    intro v
    rw [List.foldl_cons]
    rcases ih (max v p) with h | h
    · rcases le_or_lt p v with hpv | hpv
      · exact Or.inl (by rw [h, max_eq_left hpv])
      · refine Or.inr (List.mem_cons.mpr (Or.inl ?_))
        rw [h, max_eq_right hpv.le]
    · exact Or.inr (List.mem_cons.mpr (Or.inr h))

/- ### The year-indexed payout lists -/

theorem yearPayoutList_cons_of_year (bands : List PayoutBand)
    (e : EarthquakeEvent) (es : List EarthquakeEvent) (y : Int)
    (h : eventYear e.time = some y) :
    yearPayoutList bands (e :: es) y =
      eventPayout bands e.mag e.distance :: yearPayoutList bands es y := by
  simp [yearPayoutList, yearEvents, List.filter_cons, h]

theorem yearPayoutList_cons_of_ne (bands : List PayoutBand)
    (e : EarthquakeEvent) (es : List EarthquakeEvent) (y : Int)
    (h : ¬ eventYear e.time = some y) :
    yearPayoutList bands (e :: es) y = yearPayoutList bands es y := by
  simp [yearPayoutList, yearEvents, List.filter_cons, h]

/-- The dictionary built by the event loop of `compute_payouts`, read at any
year, is the running maximum of that year's per-event payouts applied to
whatever the dictionary already recorded for that year. -/
theorem computePayoutsGo_lookup (bands : List PayoutBand)
    (es : List EarthquakeEvent) : ∀ d d' : List (Int × ℚ),
    computePayoutsGo bands es d = some d' →
    ∀ y : Int, dictLookup d' y = runMax (dictLookup d y) (yearPayoutList bands es y) := by
  induction es with
  | nil =>
    intro d d' h y
    simp only [computePayoutsGo, Option.some.injEq] at h
    subst h
    simp [yearPayoutList, yearEvents, runMax]
  | cons e es ih =>
    intro d d' h y
    cases hy : eventYear e.time with
    | none => simp [computePayoutsGo, hy] at h
    | some ye =>
      simp only [computePayoutsGo, hy] at h
      have ihy := ih _ d' h y
      by_cases hyy : ye = y
      · subst hyy
        rw [ihy, yearPayoutList_cons_of_year bands e es ye hy,
          dictLookup_updateYear_self]
        cases hold : dictLookup d ye with
        | none => rw [runMax]
        | some v => rw [runMax]
      · rw [ihy, dictLookup_updateYear_ne d ye y _ hyy,
          yearPayoutList_cons_of_ne bands e es y]
        rw [hy]
        intro hc
        exact hyy (Option.some.injEq ye y ▸ hc)

/-- `compute_payouts`, read at any year, yields the running maximum (seeded
with "no entry") of that year's per-event payouts. -/
theorem compute_payouts_lookup (events : List EarthquakeEvent)
    (bands : List PayoutBand) (d : List (Int × ℚ))
    (h : compute_payouts events bands = some d) (y : Int) :
    dictLookup d y = runMax none (yearPayoutList bands events y) := by
  have := computePayoutsGo_lookup bands events [] d h y
  simpa [dictLookup] using this

/- ### Per-event payout lemmas -/

/-- The bands an event of magnitude `mg` and distance `dist` qualifies for. -/
def qualifyingBands (bands : List PayoutBand) (mg dist : ℚ) :
    List PayoutBand :=
  bands.filter (fun b => decide (dist ≤ b.radius ∧ b.magnitude ≤ mg))

theorem eventPayout_foldl_aux (mg dist : ℚ) (bands : List PayoutBand) :
    ∀ p : ℚ,
    bands.foldl
      (fun payout b =>
        if dist ≤ b.radius ∧ b.magnitude ≤ mg then
          if payout < b.payout then b.payout else payout
        else payout) p =
    ((qualifyingBands bands mg dist).map PayoutBand.payout).foldl max p := by
  induction bands with
  | nil => intro p; rfl
  | cons b bands ih =>
    intro p
    rw [List.foldl_cons]
    by_cases hb : dist ≤ b.radius ∧ b.magnitude ≤ mg
    · rw [if_pos hb]
      have hq : qualifyingBands (b :: bands) mg dist =
          b :: qualifyingBands bands mg dist := by
        simp [qualifyingBands, List.filter_cons, hb]
      rw [hq, List.map_cons, List.foldl_cons,
        ih (if p < b.payout then b.payout else p), if_lt_eq_max]
    · rw [if_neg hb]
      have hq : qualifyingBands (b :: bands) mg dist =
          qualifyingBands bands mg dist := by
        simp [qualifyingBands, List.filter_cons, hb]
      rw [hq]
      exact ih p

/-- `eventPayout` is the maximum, seeded with 0, of the payouts of the
qualifying bands. -/
theorem eventPayout_eq_foldl_max (bands : List PayoutBand) (mg dist : ℚ) :
    eventPayout bands mg dist =
      ((qualifyingBands bands mg dist).map PayoutBand.payout).foldl max 0 :=
  eventPayout_foldl_aux mg dist bands 0

theorem eventPayout_nonneg (bands : List PayoutBand) (mg dist : ℚ) :
    0 ≤ eventPayout bands mg dist := by
  rw [eventPayout_eq_foldl_max]
  exact le_foldl_max _ 0

theorem eventPayout_of_no_qualifying (bands : List PayoutBand) (mg dist : ℚ)
    (h : ∀ b ∈ bands, ¬(dist ≤ b.radius ∧ b.magnitude ≤ mg)) :
    eventPayout bands mg dist = 0 := by
  rw [eventPayout_eq_foldl_max]
  have : qualifyingBands bands mg dist = [] := by
    rw [qualifyingBands, List.filter_eq_nil_iff]
    intro b hb
    simpa using h b hb
  rw [this]
  rfl

theorem eventPayout_mono_aux (bands : List PayoutBand)
    (mg mg' dist dist' : ℚ) (hmg : mg ≤ mg') (hdist : dist' ≤ dist) :
    ∀ p p' : ℚ, p ≤ p' →
    bands.foldl
      (fun payout b =>
        if dist ≤ b.radius ∧ b.magnitude ≤ mg then
          if payout < b.payout then b.payout else payout
        else payout) p ≤
    bands.foldl
      (fun payout b =>
        if dist' ≤ b.radius ∧ b.magnitude ≤ mg' then
          if payout < b.payout then b.payout else payout
        else payout) p' := by
  induction bands with
  | nil => intro p p' hp; exact hp
  | cons b bands ih =>
    intro p p' hp
    rw [List.foldl_cons, List.foldl_cons]
    by_cases h1 : dist ≤ b.radius ∧ b.magnitude ≤ mg
    · have h2 : dist' ≤ b.radius ∧ b.magnitude ≤ mg' :=
        ⟨le_trans hdist h1.1, le_trans h1.2 hmg⟩
      rw [if_pos h1, if_pos h2]
      refine ih _ _ ?_
      rw [if_lt_eq_max, if_lt_eq_max]
      exact max_le_max hp (le_refl b.payout)
    · rw [if_neg h1]
      by_cases h2 : dist' ≤ b.radius ∧ b.magnitude ≤ mg'
      · rw [if_pos h2]
        refine ih _ _ ?_
        rw [if_lt_eq_max]
        exact le_trans hp (le_max_left p' b.payout)
      · rw [if_neg h2]
        exact ih _ _ hp

/-- Shared helper: the selection loop of `compute_burning_cost` keeps
nothing when no year of the mapping lies in the interval, so the function
returns `None`. -/
theorem compute_burning_cost_none_of_no_year (payouts : List (Int × ℚ))
    (start_year end_year : Int)
    (h : ∀ p ∈ payouts, ¬(start_year ≤ p.1 ∧ p.1 ≤ end_year)) :
    compute_burning_cost payouts start_year end_year = none := by
  have hfil : payouts.filter
      (fun p => decide (start_year ≤ p.1 ∧ p.1 ≤ end_year)) = [] := by
    rw [List.filter_eq_nil_iff]
    intro p hp
    simpa using h p hp
  simp only [compute_burning_cost]
  rw [hfil]
  rfl

theorem yearPayoutList_nonneg (bands : List PayoutBand)
    (events : List EarthquakeEvent) (y : Int) :
    ∀ w ∈ yearPayoutList bands events y, 0 ≤ w := by
  intro w hw
  rcases List.mem_map.mp hw with ⟨e, _, hw'⟩
  rw [← hw']
  exact eventPayout_nonneg bands e.mag e.distance

/- ### The claims -/

/-- Claim C1: for every payouts mapping and closed interval containing at
least one year of the mapping, `compute_burning_cost` returns the sum of the
payouts of the mapping's years inside the interval divided by the requested
interval length `end_year - start_year + 1` (not by the count of years
present in the mapping). -/
theorem burning_cost_interval_length_denominator (payouts : List (Int × ℚ))
    (start_year end_year : Int)
    (h : ∃ p ∈ payouts, start_year ≤ p.1 ∧ p.1 ≤ end_year) :
    compute_burning_cost payouts start_year end_year =
      some ((((payouts.filter
          (fun p => decide (start_year ≤ p.1 ∧ p.1 ≤ end_year))).map
            (fun p => p.2)).sum) /
        ((end_year - start_year + 1 : Int) : ℚ)) := by
  obtain ⟨p, hp, hc⟩ := h
  have hmem : p ∈ payouts.filter
      (fun q => decide (start_year ≤ q.1 ∧ q.1 ≤ end_year)) :=
    List.mem_filter.mpr ⟨hp, by simpa using hc⟩
  have hlen : ¬ ((payouts.filter
      (fun q => decide (start_year ≤ q.1 ∧ q.1 ≤ end_year))).map
        (fun q => q.2)).length < 1 := by
    have h0 : 0 < (payouts.filter
        (fun q => decide (start_year ≤ q.1 ∧ q.1 ≤ end_year))).length :=
      List.length_pos.mpr (List.ne_nil_of_mem hmem)
    rw [List.length_map]
    omega
  simp only [compute_burning_cost]
  rw [if_neg hlen]

/-- Witness for C1: the spec's example, payouts `{2000: 100, 2001: 0}` over
`[2000, 2004]` give `(100 + 0) / 5 = 20`. -/
theorem burning_cost_interval_length_denominator_witness :
    compute_burning_cost [((2000 : Int), (100 : ℚ)), (2001, 0)] 2000 2004 =
      some 20 := by
  rw [burning_cost_interval_length_denominator
    [((2000 : Int), (100 : ℚ)), (2001, 0)] 2000 2004
    ⟨((2000 : Int), (100 : ℚ)), by decide, by decide⟩]
  norm_num [List.filter]

/-- Claim C4: when zero years of the mapping fall inside the interval,
`compute_burning_cost` returns the explicit no-data signal `None`, never the
number 0. -/
theorem burning_cost_no_data_signal (payouts : List (Int × ℚ))
    (start_year end_year : Int)
    (h : ∀ p ∈ payouts, ¬(start_year ≤ p.1 ∧ p.1 ≤ end_year)) :
    compute_burning_cost payouts start_year end_year = none ∧
      compute_burning_cost payouts start_year end_year ≠ some 0 := by
  have hn := compute_burning_cost_none_of_no_year payouts start_year end_year h
  exact ⟨hn, by rw [hn]; exact fun hc => Option.noConfusion hc⟩

/-- Witness for C4: the spec's example, interval `[1900, 1901]` with no
payouts mapped in that range. -/
theorem burning_cost_no_data_signal_witness :
    compute_burning_cost [((1950 : Int), (5 : ℚ))] 1900 1901 = none ∧
      compute_burning_cost [((1950 : Int), (5 : ℚ))] 1900 1901 ≠ some 0 :=
  burning_cost_no_data_signal [((1950 : Int), (5 : ℚ))] 1900 1901
    (by intro p hp; simp at hp; rw [hp]; decide)

/-- Claim C9: whenever `start_year > end_year`, `compute_burning_cost`
returns the no-data signal `None`: no year can fall in the empty interval,
so the division by the interval length is never reached. -/
theorem burning_cost_empty_interval (payouts : List (Int × ℚ))
    (start_year end_year : Int) (h : end_year < start_year) :
    compute_burning_cost payouts start_year end_year = none := by
  apply compute_burning_cost_none_of_no_year
  intro p _ hc
  exact absurd (le_trans hc.1 hc.2) (not_le.mpr h)

/-- Witness for C9: a non-empty mapping with an inverted interval. -/
theorem burning_cost_empty_interval_witness :
    compute_burning_cost [((2000 : Int), (100 : ℚ))] 2010 2001 = none :=
  burning_cost_empty_interval [((2000 : Int), (100 : ℚ))] 2010 2001
    (by decide)

/-- Claim C8: the great-circle distance is symmetric in the reference point
and the input point. -/
theorem haversine_symm (lat lon lat0 lon0 : ℝ) :
    get_haversine_distance lat lon lat0 lon0 =
      get_haversine_distance lat0 lon0 lat lon := by
  simp only [get_haversine_distance]
  have h1 : ∀ x y : ℝ,
      Real.sin ((x * (Real.pi / 180) - y * (Real.pi / 180)) / 2) ^ 2 =
        Real.sin ((y * (Real.pi / 180) - x * (Real.pi / 180)) / 2) ^ 2 := by
    intro x y
    rw [show (y * (Real.pi / 180) - x * (Real.pi / 180)) / 2 =
        -((x * (Real.pi / 180) - y * (Real.pi / 180)) / 2) by ring,
      Real.sin_neg]
    ring
  rw [h1 lat lat0, h1 lon lon0,
    mul_comm (Real.cos (lat0 * (Real.pi / 180)))
      (Real.cos (lat * (Real.pi / 180)))]

/-- Claim C2: under the schedule invariant of the data model (payout
amounts are non-negative), the per-event payout computed by
`compute_payouts` is the maximum payout over the qualifying bands
(`distance <= radius` and `magnitude >= threshold`, both required), is 0
when no band qualifies, and is never negative. -/
theorem event_payout_is_max_of_qualifying (bands : List PayoutBand)
    (mg dist : ℚ) (hpos : ∀ b ∈ bands, 0 ≤ b.payout) :
    (qualifyingBands bands mg dist = [] → eventPayout bands mg dist = 0) ∧
    (qualifyingBands bands mg dist ≠ [] →
      eventPayout bands mg dist ∈
          (qualifyingBands bands mg dist).map PayoutBand.payout ∧
        ∀ w ∈ (qualifyingBands bands mg dist).map PayoutBand.payout,
          w ≤ eventPayout bands mg dist) ∧
    0 ≤ eventPayout bands mg dist := by
  refine ⟨fun hq => ?_, fun hq => ?_, eventPayout_nonneg bands mg dist⟩
  · rw [eventPayout_eq_foldl_max, hq]
    rfl
  · have hbound : ∀ w ∈ (qualifyingBands bands mg dist).map PayoutBand.payout,
        w ≤ eventPayout bands mg dist := by
      intro w hw
      rw [eventPayout_eq_foldl_max]
      exact foldl_max_le_of_mem _ 0 w hw
    refine ⟨?_, hbound⟩
    rw [eventPayout_eq_foldl_max]
    rcases foldl_max_mem ((qualifyingBands bands mg dist).map PayoutBand.payout) 0
      with h0 | hmem
    · cases hql : (qualifyingBands bands mg dist).map PayoutBand.payout with
      | nil =>
        exact absurd (List.map_eq_nil_iff.mp hql) hq
      | cons w ws =>
        have h0' : List.foldl max 0 (w :: ws) = 0 := by
          rw [← hql]
          exact h0
        have hwmem : w ∈ (qualifyingBands bands mg dist).map PayoutBand.payout := by
          rw [hql]
          exact List.mem_cons_self w ws
        have hw0 : 0 ≤ w := by
          rcases List.mem_map.mp hwmem with ⟨b, hb, hbw⟩
          rw [← hbw]
          exact hpos b (List.mem_of_mem_filter hb)
        have hwle : w ≤ 0 := by
          have h' := foldl_max_le_of_mem (w :: ws) 0 w (List.mem_cons_self w ws)
          rw [h0'] at h'
          exact h'
        rw [h0', ← le_antisymm hwle hw0]
        exact List.mem_cons_self w ws
    · exact hmem

/-- Witness for C2: a two-band schedule where only the first band qualifies
for a magnitude-6 event at distance 50; the event payout 500 is the maximum
qualifying payout. -/
theorem event_payout_is_max_of_qualifying_witness :
    eventPayout [⟨100, 5, 500⟩, ⟨50, 7, 1000⟩] 6 50 ∈
        (qualifyingBands [⟨100, 5, 500⟩, ⟨50, 7, 1000⟩] 6 50).map
          PayoutBand.payout ∧
      eventPayout [⟨100, 5, 500⟩, ⟨50, 7, 1000⟩] 6 50 = 500 :=
  ⟨((event_payout_is_max_of_qualifying [⟨100, 5, 500⟩, ⟨50, 7, 1000⟩] 6 50
      (by decide)).2.1 (by decide)).1, by decide⟩

/-- Claim C3: the value `compute_payouts` records for a calendar year is the
maximum per-event payout over all events of that year (a member of the
year's per-event payout list that bounds every member), not their sum. -/
theorem yearly_payout_is_max_not_sum (events : List EarthquakeEvent)
    (bands : List PayoutBand) (d : List (Int × ℚ))
    (h : compute_payouts events bands = some d) (y : Int) (v : ℚ)
    (hv : dictLookup d y = some v) :
    v ∈ yearPayoutList bands events y ∧
      ∀ w ∈ yearPayoutList bands events y, w ≤ v := by
  have hl := compute_payouts_lookup events bands d h y
  rw [hv] at hl
  cases hpl : yearPayoutList bands events y with
  | nil =>
    rw [hpl] at hl
    exact absurd hl (by simp [runMax])
  | cons p l =>
    rw [hpl, runMax_none_cons] at hl
    injection hl with hv2
    constructor
    · rcases foldl_max_mem l p with h1 | h1
      · rw [hv2, h1]
        exact List.mem_cons_self p l
      · rw [hv2]
        exact List.mem_cons_of_mem p h1
    · intro w hw
      rw [hv2]
      rcases List.mem_cons.mp hw with h1 | h1
      · rw [h1]
        exact le_foldl_max l p
      · exact foldl_max_le_of_mem l p w h1

/-- Witness for C3: two events of year 2000 triggering payouts 100 and 300
yield the yearly payout 300 (the maximum), not 400 (the sum). -/
theorem yearly_payout_is_max_not_sum_witness :
    compute_payouts [⟨"2000", 6, 10⟩, ⟨"2000", 7, 10⟩]
        [⟨50, 5, 100⟩, ⟨50, 7, 300⟩] = some [(2000, 300)] ∧
      ((300 : ℚ) ∈ yearPayoutList [⟨50, 5, 100⟩, ⟨50, 7, 300⟩]
          [⟨"2000", 6, 10⟩, ⟨"2000", 7, 10⟩] 2000 ∧
        ∀ w ∈ yearPayoutList [⟨50, 5, 100⟩, ⟨50, 7, 300⟩]
            [⟨"2000", 6, 10⟩, ⟨"2000", 7, 10⟩] 2000, w ≤ 300) :=
  ⟨by decide,
    yearly_payout_is_max_not_sum [⟨"2000", 6, 10⟩, ⟨"2000", 7, 10⟩]
      [⟨50, 5, 100⟩, ⟨50, 7, 300⟩] [(2000, 300)] (by decide) 2000 300
      (by decide)⟩

/-- Claim C7: for a fixed schedule, increasing an event's magnitude (holding
distance fixed) never decreases its per-event payout, and decreasing its
distance (holding magnitude fixed) never decreases it either. -/
theorem event_payout_monotone (bands : List PayoutBand)
    (mg mg' dist dist' : ℚ) (hmg : mg ≤ mg') (hdist : dist' ≤ dist) :
    eventPayout bands mg dist ≤ eventPayout bands mg' dist' :=
  eventPayout_mono_aux bands mg mg' dist dist' hmg hdist 0 0 (le_refl 0)

/-- Witness for C7: raising the magnitude from 4 to 6 and lowering the
distance from 120 to 50 moves the payout from 0 to 500. -/
theorem event_payout_monotone_witness :
    eventPayout [⟨100, 5, 500⟩] 4 120 ≤ eventPayout [⟨100, 5, 500⟩] 6 50 ∧
      eventPayout [⟨100, 5, 500⟩] 4 120 = 0 ∧
      eventPayout [⟨100, 5, 500⟩] 6 50 = 500 :=
  ⟨event_payout_monotone [⟨100, 5, 500⟩] 4 6 120 50 (by decide) (by decide),
    by decide, by decide⟩

/-- Claim C10: every value recorded by `compute_payouts` is non-negative,
even for schedules containing negative payout amounts, because each
per-event payout starts at 0 and is only replaced by a strictly larger
value. -/
theorem payout_values_nonneg (events : List EarthquakeEvent)
    (bands : List PayoutBand) (d : List (Int × ℚ))
    (h : compute_payouts events bands = some d) (y : Int) (v : ℚ)
    (hv : dictLookup d y = some v) : 0 ≤ v := by
  have hl := compute_payouts_lookup events bands d h y
  rw [hv] at hl
  cases hpl : yearPayoutList bands events y with
  | nil =>
    rw [hpl] at hl
    exact absurd hl (by simp [runMax])
  | cons p l =>
    rw [hpl, runMax_none_cons] at hl
    injection hl with hv2
    have hp : 0 ≤ p := by
      apply yearPayoutList_nonneg bands events y
      rw [hpl]
      exact List.mem_cons_self p l
    rw [hv2]
    exact le_trans hp (le_foldl_max l p)

/-- Witness for C10: a schedule whose only band has payout -50 qualifies for
the 1999 event, yet the recorded yearly value is 0, not -50. -/
theorem payout_values_nonneg_witness :
    compute_payouts [⟨"1999", 6, 10⟩] [⟨100, 5, -50⟩] = some [(1999, 0)] ∧
      (0 : ℚ) ≤ 0 :=
  ⟨by decide,
    payout_values_nonneg [⟨"1999", 6, 10⟩] [⟨100, 5, -50⟩] [(1999, 0)]
      (by decide) 1999 0 (by decide)⟩

/-- Claim C5: every year appearing in some event's `time` field is a key of
the mapping returned by `compute_payouts`; its value is 0 when no event of
that year qualifies for any band (the key is inserted, never omitted); and
an event whose year already has a recorded payout updates it only if the
new value is strictly greater. -/
theorem payout_years_key_semantics (events : List EarthquakeEvent)
    (bands : List PayoutBand) (d : List (Int × ℚ))
    (h : compute_payouts events bands = some d) :
    (∀ y : Int, (∃ e ∈ events, eventYear e.time = some y) →
        (dictLookup d y).isSome = true) ∧
    (∀ y : Int, (∃ e ∈ events, eventYear e.time = some y) →
        (∀ e ∈ yearEvents events y, ∀ b ∈ bands,
          ¬(e.distance ≤ b.radius ∧ b.magnitude ≤ e.mag)) →
        dictLookup d y = some 0) ∧
    (∀ (d' : List (Int × ℚ)) (y : Int) (p v : ℚ), dictLookup d' y = some v →
        dictLookup (updateYear d' y p) y =
          some (if v < p then p else v)) := by
  have hkey : ∀ y : Int, (∃ e ∈ events, eventYear e.time = some y) →
      ∃ p l, yearPayoutList bands events y = p :: l := by
    intro y ⟨e, he, hy⟩
    have hmem : e ∈ yearEvents events y :=
      List.mem_filter.mpr ⟨he, by simpa using hy⟩
    cases hpl : yearPayoutList bands events y with
    | nil =>
      have : yearEvents events y = [] := by
        have := congrArg List.length hpl
        rw [yearPayoutList, List.length_map] at this
        exact List.length_eq_zero.mp this
      rw [this] at hmem
      exact absurd hmem (List.not_mem_nil e)
    | cons p l => exact ⟨p, l, rfl⟩
  refine ⟨fun y hy => ?_, fun y hy hnq => ?_, fun d' y p v hv => ?_⟩
  · obtain ⟨p, l, hpl⟩ := hkey y hy
    have hl := compute_payouts_lookup events bands d h y
    rw [hpl, runMax_none_cons] at hl
    rw [hl]
    rfl
  · obtain ⟨p, l, hpl⟩ := hkey y hy
    have hzero : ∀ w ∈ yearPayoutList bands events y, w = 0 := by
      intro w hw
      rcases List.mem_map.mp hw with ⟨e, he, hw'⟩
      rw [← hw']
      exact eventPayout_of_no_qualifying bands e.mag e.distance
        (fun b hb => hnq e he b hb)
    have hl := compute_payouts_lookup events bands d h y
    rw [hpl, runMax_none_cons] at hl
    have hfold : l.foldl max p = 0 := by
      have hp0 : p = 0 := hzero p (by rw [hpl]; exact List.mem_cons_self p l)
      rcases foldl_max_mem l p with h1 | h1
      · rw [h1, hp0]
      · exact hzero _ (by rw [hpl]; exact List.mem_cons_of_mem p h1)
    rw [hl, hfold]
  · rw [dictLookup_updateYear_self, hv]

/-- Witness for C5: a single 2000 event qualifying for no band still gets
the key 2000 with value 0. -/
theorem payout_years_key_semantics_witness :
    compute_payouts [⟨"2000", 5, 10⟩] [⟨1, 9, 100⟩] = some [(2000, 0)] ∧
      dictLookup [((2000 : Int), (0 : ℚ))] 2000 = some 0 :=
  ⟨by decide,
    (payout_years_key_semantics [⟨"2000", 5, 10⟩] [⟨1, 9, 100⟩] [(2000, 0)]
        (by decide)).2.1 2000 ⟨⟨"2000", 5, 10⟩, by decide, by decide⟩
      (by decide)⟩

/- ### Domain analysis of the inverse-sine step

The source computes `2 * arcsin(sqrt(a))` without clamping `a` to `[0, 1]`.
Over the exact reals the clamp is redundant: `a` provably lies in `[0, 1]`
for every input whatsoever, so the argument handed to `arcsin` lies in
`[-1, 1]`.  Whether the unclamped code can actually produce an
out-of-domain argument is purely a question of IEEE floating-point
rounding, which this real-valued embedding does not model. -/

/-- The squared-sine sum `a` of `get_haversine_distance` (tools.py line 38),
the value handed to the square root and inverse sine. -/
noncomputable def haversineA (lat lon lat0 lon0 : ℝ) : ℝ :=
  Real.sin ((lat * (Real.pi / 180) - lat0 * (Real.pi / 180)) / 2) ^ 2 +
    Real.cos (lat0 * (Real.pi / 180)) * Real.cos (lat * (Real.pi / 180)) *
      Real.sin ((lon * (Real.pi / 180) - lon0 * (Real.pi / 180)) / 2) ^ 2

theorem get_haversine_distance_eq (lat lon lat0 lon0 : ℝ) :
    get_haversine_distance lat lon lat0 lon0 =
      2 * Real.arcsin (Real.sqrt (haversineA lat lon lat0 lon0)) *
        EARTH_RADIUS := by
  simp only [get_haversine_distance, haversineA]

theorem trig_sum_le_one (x y z : ℝ) :
    Real.sin ((x - y) / 2) ^ 2 +
      Real.cos y * Real.cos x * Real.sin (z / 2) ^ 2 ≤ 1 := by
  have hx2 : Real.sin ((x - y) / 2) ^ 2 = 1 / 2 - Real.cos (x - y) / 2 := by
    rw [Real.sin_sq_eq_half_sub]
    rw [show 2 * ((x - y) / 2) = x - y by ring]
  have hz2 : Real.sin (z / 2) ^ 2 = 1 / 2 - Real.cos z / 2 := by
    rw [Real.sin_sq_eq_half_sub]
    rw [show 2 * (z / 2) = z by ring]
  rw [hx2, hz2, Real.cos_sub]
  have hc1 : (0:ℝ) ≤ 1 - Real.cos z := by
    have := Real.cos_le_one z
    linarith
  have hc2 : (0:ℝ) ≤ 1 + Real.cos z := by
    have := Real.neg_one_le_cos z
    linarith
  have hA : (0:ℝ) ≤ 1 + (Real.cos x * Real.cos y + Real.sin x * Real.sin y) := by
    have := Real.neg_one_le_cos (x - y)
    rw [Real.cos_sub] at this
    linarith
  have hD : (0:ℝ) ≤ 1 - (Real.cos x * Real.cos y - Real.sin x * Real.sin y) := by
    have := Real.cos_le_one (x + y)
    rw [Real.cos_add] at this
    linarith
  nlinarith [mul_nonneg hc2 hA, mul_nonneg hc1 hD]

theorem trig_sum_nonneg (x y z : ℝ) :
    0 ≤ Real.sin ((x - y) / 2) ^ 2 +
      Real.cos y * Real.cos x * Real.sin (z / 2) ^ 2 := by
  have hx2 : Real.sin ((x - y) / 2) ^ 2 = 1 / 2 - Real.cos (x - y) / 2 := by
    rw [Real.sin_sq_eq_half_sub]
    rw [show 2 * ((x - y) / 2) = x - y by ring]
  have hz2 : Real.sin (z / 2) ^ 2 = 1 / 2 - Real.cos z / 2 := by
    rw [Real.sin_sq_eq_half_sub]
    rw [show 2 * (z / 2) = z by ring]
  rw [hx2, hz2, Real.cos_sub]
  have hc1 : (0:ℝ) ≤ 1 - Real.cos z := by
    have := Real.cos_le_one z
    linarith
  have hc2 : (0:ℝ) ≤ 1 + Real.cos z := by
    have := Real.neg_one_le_cos z
    linarith
  have hB : (0:ℝ) ≤ 1 - (Real.cos x * Real.cos y + Real.sin x * Real.sin y) := by
    have := Real.cos_le_one (x - y)
    rw [Real.cos_sub] at this
    linarith
  have hC : (0:ℝ) ≤ 1 + (Real.cos x * Real.cos y - Real.sin x * Real.sin y) := by
    have := Real.neg_one_le_cos (x + y)
    rw [Real.cos_add] at this
    linarith
  nlinarith [mul_nonneg hc2 hB, mul_nonneg hc1 hC]

/-- Over the exact reals the unclamped squared-sine sum lies in `[0, 1]` for
every input, so the argument of the inverse-sine step lies in `[-1, 1]`; the
clamp the spec asks for is observable only under floating-point rounding. -/
theorem haversineA_mem_Icc (lat lon lat0 lon0 : ℝ) :
    haversineA lat lon lat0 lon0 ∈ Set.Icc (0:ℝ) 1 ∧
      Real.sqrt (haversineA lat lon lat0 lon0) ∈ Set.Icc (-1:ℝ) 1 := by
  have h0 : 0 ≤ haversineA lat lon lat0 lon0 :=
    trig_sum_nonneg (lat * (Real.pi / 180)) (lat0 * (Real.pi / 180))
      (lon * (Real.pi / 180) - lon0 * (Real.pi / 180))
  have h1 : haversineA lat lon lat0 lon0 ≤ 1 :=
    trig_sum_le_one (lat * (Real.pi / 180)) (lat0 * (Real.pi / 180))
      (lon * (Real.pi / 180) - lon0 * (Real.pi / 180))
  refine ⟨⟨h0, h1⟩, ⟨?_, ?_⟩⟩
  · exact le_trans (by norm_num) (Real.sqrt_nonneg _)
  · rw [show (1:ℝ) = Real.sqrt 1 by rw [Real.sqrt_one]]
    exact Real.sqrt_le_sqrt h1

end Earthquakes
